import Mathlib

/-!
Verification of the MuJoCo elasticity solid plugin
(`src/plugin/elasticity/elasticity.h`, `src/plugin/elasticity/solid.cc`).

Machine numbers (`mjtNum`, i.e. C `double`) are modelled as rationals `ℚ`;
host arrays are modelled as total functions `ℕ → ℚ` indexed the way the C
code indexes them; in-place accumulation loops (`+=` / `-=`) are modelled as
folds of pointwise `Function.update` over the list of writes performed, in
program order.
-/

namespace Elasticity

/-- Fatal-error conditions raised through `mju_error` by the plugin; a
fatal error aborts the host process, modelled as `Except.error`. -/
inductive MjError where
  | stiffnessSize
  | non3DMesh
  | bodyPluginMismatch

/-- A simplex connectivity stencil: edge count, vertex count and the
edge-to-endpoint table (`T::kNumEdges`, `T::kNumVerts`, `T::edge`). -/
structure Stencil where
  kNumEdges : ℕ
  kNumVerts : ℕ
  edge : ℕ → ℕ → ℕ

/-- Stencil `Stencil2D` from elasticity.h: 3 vertices, 3 edges,
`edge = {{1, 2}, {2, 0}, {0, 1}}`. -/
def Stencil2D : Stencil where
  kNumEdges := 3
  kNumVerts := 3
  edge := fun e s => (([[1, 2], [2, 0], [0, 1]].getD e []).getD s 0)

/-- Stencil `Stencil3D` from elasticity.h: 4 vertices, 6 edges,
`edge = {{0, 1}, {1, 2}, {2, 0}, {2, 3}, {0, 3}, {1, 3}}`. -/
def Stencil3D : Stencil where
  kNumEdges := 6
  kNumVerts := 4
  edge := fun e s => (([[0, 1], [1, 2], [2, 0], [2, 3], [0, 3], [1, 3]].getD e []).getD s 0)

/-- Function `GradSquaredLengths` (elasticity.h, lines 54-64): for edge `e`, side
`s ∈ {0,1}` and coordinate `d`, the gradient entry
`gradient[e][0][d] = x[3*v[edge[e][0]]+d] - x[3*v[edge[e][1]]+d]` and
`gradient[e][1][d]` with the two endpoints swapped. -/
def GradSquaredLengths (T : Stencil) (x : ℕ → ℚ) (v : ℕ → ℕ) (e s d : ℕ) : ℚ :=
  if s = 0 then
    x (3 * v (T.edge e 0) + d) - x (3 * v (T.edge e 1) + d)
  else
    x (3 * v (T.edge e 1) + d) - x (3 * v (T.edge e 0) + d)

/-- Pointwise update of a modelled C array: `upd f i v` is `f` with slot `i`
overwritten by `v`. -/
def upd (f : ℕ → ℚ) (i : ℕ) (v : ℚ) : ℕ → ℚ :=
  fun n => if n = i then v else f n

/-- A sequence of in-place accumulations `buf[p.1] += p.2`, executed in list
order starting from `init`. -/
def accumulate (init : ℕ → ℚ) (writes : List (ℕ × ℚ)) : ℕ → ℚ :=
  writes.foldl (fun f p => upd f p.1 (f p.1 + p.2)) init

/-- The list of writes performed by the local-force loop of `ComputeForce`
(elasticity.h, lines 108-120), in program order: for each ordered edge pair
`(ed1, ed2)`, each side `i` and each coordinate `x`,
`force[3*edge[ed2][i]+x] -= elongation[ed1]*gradient[ed2][i][x]*metric[E*ed1+ed2]`. -/
def localWrites (T : Stencil) (elongation : ℕ → ℚ) (gradient : ℕ → ℕ → ℕ → ℚ)
    (metric : ℕ → ℚ) : List (ℕ × ℚ) :=
  (List.range T.kNumEdges).flatMap fun ed1 =>
    (List.range T.kNumEdges).flatMap fun ed2 =>
      (List.range 2).flatMap fun i =>
        (List.range 3).map fun x =>
          (3 * T.edge ed2 i + x,
           -(elongation ed1 * gradient ed2 i x * metric (T.kNumEdges * ed1 + ed2)))

/-- The per-element force buffer of `ComputeForce` (elasticity.h, lines
108-120): starts at zero (`mjtNum force[...] = {0}`) and accumulates the
writes of the loop nest. -/
def localForce (T : Stencil) (elongation : ℕ → ℚ) (gradient : ℕ → ℕ → ℕ → ℚ)
    (metric : ℕ → ℚ) : ℕ → ℚ :=
  accumulate (fun _ => 0) (localWrites T elongation gradient metric)

/-- The total contribution of a write list to one slot. -/
def writeSum (writes : List (ℕ × ℚ)) (n : ℕ) : ℚ :=
  (writes.map fun p => if p.1 = n then p.2 else 0).sum

lemma accumulate_apply (writes : List (ℕ × ℚ)) (init : ℕ → ℚ) (n : ℕ) :
    accumulate init writes n = init n + writeSum writes n := by
  induction writes generalizing init with
  | nil => simp [accumulate, writeSum]
  | cons p t ih =>
      simp only [accumulate, List.foldl_cons, writeSum, List.map_cons, List.sum_cons] at *
      rw [ih]
      by_cases h : p.1 = n
      · subst h; simp [upd]; ring
      · simp [upd, Ne.symm h, h]

lemma writeSum_append (l₁ l₂ : List (ℕ × ℚ)) (n : ℕ) :
    writeSum (l₁ ++ l₂) n = writeSum l₁ n + writeSum l₂ n := by
  simp [writeSum]

lemma writeSum_flatMap {α : Type} (l : List α) (f : α → List (ℕ × ℚ)) (n : ℕ) :
    writeSum (l.flatMap f) n = (l.map fun a => writeSum (f a) n).sum := by
  induction l with
  | nil => simp [writeSum]
  | cons a t ih => simp [List.flatMap_cons, writeSum_append, ih]

lemma range_map_sum (k : ℕ) (f : ℕ → ℚ) :
    ((List.range k).map f).sum = ∑ i in Finset.range k, f i := by
  induction k with
  | zero => simp
  | succ m ih => rw [List.range_succ, Finset.sum_range_succ]; simp [ih]

lemma writeSum_range_map (k : ℕ) (a : ℕ → ℕ) (b : ℕ → ℚ) (n : ℕ) :
    writeSum ((List.range k).map fun x => (a x, b x)) n =
      ∑ x in Finset.range k, if a x = n then b x else 0 := by
  rw [writeSum, List.map_map, ← range_map_sum]
  rfl

/-- Closed form of the per-element force: the value accumulated at slot `n`
is the sum, over ordered edge pairs, sides and coordinates, of the
decrements written there. -/
lemma localForce_apply (T : Stencil) (elongation : ℕ → ℚ)
    (gradient : ℕ → ℕ → ℕ → ℚ) (metric : ℕ → ℚ) (n : ℕ) :
    localForce T elongation gradient metric n =
      ∑ ed1 in Finset.range T.kNumEdges, ∑ ed2 in Finset.range T.kNumEdges,
        ∑ i in Finset.range 2, ∑ x in Finset.range 3,
          if 3 * T.edge ed2 i + x = n then
            -(elongation ed1 * gradient ed2 i x * metric (T.kNumEdges * ed1 + ed2))
          else 0 := by
  rw [localForce, accumulate_apply, localWrites]
  simp only [writeSum_flatMap, writeSum_range_map, range_map_sum]
  simp

/-- The sequence of upper-triangular edge pairs `(ed1, ed2)` with
`ed1 ≤ ed2 < E`, in the order the packing loops of `MetricTensor`
(elasticity.h, lines 188-194) and of the unpacking loop of `ComputeForce`
(lines 96-102) enumerate them with their running counter `id`. -/
def triPairs (E : ℕ) : List (ℕ × ℕ) :=
  (List.range E).flatMap fun ed1 => (List.range (E - ed1)).map fun off => (ed1, ed1 + off)

/-- The unpacking loop of `ComputeForce` (elasticity.h, lines 93-102):
`metric[E*ed1 + ed2] = metric[E*ed2 + ed1] = k[id]` where `id` counts the
upper-triangular pairs in row-major order. -/
def unpackMetric (E : ℕ) (kt : ℕ → ℚ) : ℕ → ℚ :=
  ((triPairs E).enum).foldl
    (fun metric p =>
      upd (upd metric (E * p.2.1 + p.2.2) (kt p.1)) (E * p.2.2 + p.2.1) (kt p.1))
    (fun _ => 0)

/-- First invariant `trE` of `MetricTensor` (elasticity.h, lines 162-167):
`trE[e] = Σ_{i<3} basis[e][4*i]`. -/
def trE (basis : ℕ → ℕ → ℚ) (e : ℕ) : ℚ :=
  ∑ i in Finset.range 3, basis e (4 * i)

/-- Second invariant `trEE` of `MetricTensor` (elasticity.h, lines 169-178):
`trEE[ed1,ed2] = Σ_{i<3} Σ_{j<3} basis[ed1][3*i+j] * basis[ed2][3*j+i]`. -/
def trEE (basis : ℕ → ℕ → ℚ) (ed1 ed2 : ℕ) : ℚ :=
  ∑ i in Finset.range 3, ∑ j in Finset.range 3, basis ed1 (3 * i + j) * basis ed2 (3 * j + i)

/-- Full strain metric of `MetricTensor` (elasticity.h, lines 180-186):
`k[E*ed1 + ed2] = mu*trEE[E*ed1+ed2] + la*trE[ed2]*trE[ed1]`. -/
def kFull (mu la : ℚ) (basis : ℕ → ℕ → ℚ) (ed1 ed2 : ℕ) : ℚ :=
  mu * trEE basis ed1 ed2 + la * trE basis ed2 * trE basis ed1

/-- The packed (upper-triangular, row-major) output of `MetricTensor`
(elasticity.h, lines 188-194): the values written at `metric[21*idx + id]`
for `id = 0, 1, ...`, in write order. -/
def MetricTensorPacked (T : Stencil) (mu la : ℚ) (basis : ℕ → ℕ → ℚ) : List ℚ :=
  (triPairs T.kNumEdges).map fun p => kFull mu la basis p.1 p.2

/-- Function `MetricTensor` (elasticity.h, lines 155-199) with its final consistency
check: after packing, `mju_error` is raised if the number of packed entries
differs from `E*(E+1)/2`; the fatal `mju_error` is modelled as `Except.error`. -/
def MetricTensor (T : Stencil) (mu la : ℚ) (basis : ℕ → ℕ → ℚ) :
    Except MjError (List ℚ) :=
  let packed := MetricTensorPacked T mu la basis
  if packed.length = T.kNumEdges * (T.kNumEdges + 1) / 2 then Except.ok packed
  else Except.error MjError.stiffnessSize

/-- Spec section 9's documented index function for the packed upper triangle:
`idx(i,j) = i*(2E-i+1)/2 + (j-i)` for `i ≤ j`. -/
def triIdx (E i j : ℕ) : ℕ := i * (2 * E - i + 1) / 2 + (j - i)

/-- Entry `(i, j)` of the packed metric read back as a symmetric matrix:
the packed scalar at the row-major upper-triangular position of the
unordered pair. -/
def metricAt (E : ℕ) (kt : ℕ → ℚ) (i j : ℕ) : ℚ :=
  if i ≤ j then kt (triIdx E i j) else kt (triIdx E j i)

/-- For the tetrahedron stencil (`E = 6`), the unpacking loop of
`ComputeForce` reads entry `(i, j)` of the full matrix from the packed
position of the unordered pair, as given by the documented row-major index. -/
lemma unpackMetric_six (kt : ℕ → ℚ) :
    ∀ i j, i < 6 → j < 6 → unpackMetric 6 kt (6 * i + j) = metricAt 6 kt i j := by
  intro i j hi hj
  interval_cases i <;> interval_cases j <;> rfl

/-- Same as `unpackMetric_six` for the triangle stencil (`E = 3`). -/
lemma unpackMetric_three (kt : ℕ → ℚ) :
    ∀ i j, i < 3 → j < 3 → unpackMetric 3 kt (3 * i + j) = metricAt 3 kt i j := by
  intro i j hi hj
  interval_cases i <;> interval_cases j <;> rfl

/-! ## The host model

The fields of `mjModel` and `mjData` that the plugin reads, modelled as
total functions over flat indices, exactly as the C code addresses them. -/

/-- The slice of `mjModel` consumed by the plugin. -/
structure MjModelFlex where
  nbody : ℕ
  nflex : ℕ
  opt_timestep : ℚ
  body_plugin : ℕ → Int
  body_simple : ℕ → ℕ
  body_dofnum : ℕ → ℕ
  body_dofadr : ℕ → ℕ
  flex_dim : ℕ → ℕ
  flex_vertadr : ℕ → ℕ
  flex_vertnum : ℕ → ℕ
  flex_vertbodyid : ℕ → ℕ
  flex_edgeadr : ℕ → ℕ
  flex_edgenum : ℕ → ℕ
  flex_elem : ℕ → ℕ
  flex_elemadr : ℕ → ℕ
  flex_elemnum : ℕ → ℕ
  flex_elemdataadr : ℕ → ℕ
  flex_elemedgeadr : ℕ → ℕ
  flex_elemedge : ℕ → ℕ
  flex_stiffness : ℕ → ℚ
  flexedge_length0 : ℕ → ℚ
  flex_xvert0 : ℕ → ℚ

/-- The slice of `mjData` consumed by the plugin. -/
structure MjData where
  flexedge_length : ℕ → ℚ
  flexvert_xpos : ℕ → ℚ
  qfrc_passive : ℕ → ℚ

/-- Global vertex index `v[i]` of element `t`:
`elem = flex_elem + flex_elemdataadr[flex]`, `v = elem + (dim+1)*t`
(elasticity.h, lines 75 and 80). -/
def elemVert (m : MjModelFlex) (flex t i : ℕ) : ℕ :=
  m.flex_elem (m.flex_elemdataadr flex + (m.flex_dim flex + 1) * t + i)

/-- Elongation of local edge `e` of element `t`:
`elongation[e] = elongationglob[edgeelem[t*kNumEdges + e]]`
(elasticity.h, lines 76 and 86-91). -/
def elemElong (T : Stencil) (elongationglob : ℕ → ℚ) (m : MjModelFlex)
    (flex t e : ℕ) : ℚ :=
  elongationglob (m.flex_elemedge (m.flex_elemedgeadr flex + (t * T.kNumEdges + e)))

/-- Packed stiffness scalar `id` of element `t`:
`k = flex_stiffness + 21*flex_elemadr[flex]`, read at `k[21*t + id]`
(elasticity.h, lines 72 and 99). -/
def elemStiff (m : MjModelFlex) (flex t id : ℕ) : ℚ :=
  m.flex_stiffness (21 * m.flex_elemadr flex + (21 * t + id))

/-- The writes of the global-insertion loop of `ComputeForce` (elasticity.h,
lines 122-127) for element `t`: `qfrc_passive[3*v[i]+x] += force[3*i+x]`,
where `force` is the local force of the element. -/
def elemWrites (T : Stencil) (elongationglob : ℕ → ℚ) (m : MjModelFlex)
    (flex : ℕ) (xpos : ℕ → ℚ) (t : ℕ) : List (ℕ × ℚ) :=
  let v := elemVert m flex t
  let force := localForce T (elemElong T elongationglob m flex t)
    (GradSquaredLengths T xpos v) (unpackMetric T.kNumEdges (elemStiff m flex t))
  (List.range T.kNumVerts).flatMap fun i =>
    (List.range 3).map fun x => (3 * v i + x, force (3 * i + x))

/-- Function `ComputeForce` (elasticity.h, lines 66-129): zero the buffer
(`mju_zero`), then for each element accumulate its local force into the
global per-vertex buffer. -/
def ComputeForce (T : Stencil) (elongationglob : ℕ → ℚ) (m : MjModelFlex)
    (flex : ℕ) (xpos : ℕ → ℚ) : ℕ → ℚ :=
  (List.range (m.flex_elemnum flex)).foldl
    (fun qfrc t => accumulate qfrc (elemWrites T elongationglob m flex xpos t))
    (fun _ => 0)

lemma foldl_accumulate_apply (g : ℕ → List (ℕ × ℚ)) (k : ℕ) (q0 : ℕ → ℚ) (n : ℕ) :
    ((List.range k).foldl (fun q t => accumulate q (g t)) q0) n =
      q0 n + ∑ t in Finset.range k, writeSum (g t) n := by
  induction k with
  | zero => simp
  | succ m ih =>
      rw [List.range_succ, List.foldl_append, Finset.sum_range_succ]
      simp only [List.foldl_cons, List.foldl_nil]
      rw [accumulate_apply, ih]
      ring

lemma sum_three_collapse (a w c : ℕ) (hc : c < 3) (A : ℕ → ℚ) :
    (∑ x in Finset.range 3, if 3 * a + x = 3 * w + c then A x else 0) =
      if a = w then A c else 0 := by
  by_cases haw : a = w
  · subst haw
    rw [if_pos rfl, Finset.sum_eq_single c]
    · simp
    · intro x _ hxc
      have hne : ¬(3 * a + x = 3 * a + c) := by omega
      simp [hne]
    · intro h; exact absurd (Finset.mem_range.2 hc) h
  · rw [if_neg haw]
    apply Finset.sum_eq_zero
    intro x hx
    have hx3 := Finset.mem_range.1 hx
    have hne : ¬(3 * a + x = 3 * w + c) := by omega
    simp [hne]

/-- For sides `s ∈ {0, 1}`, the gradient of `GradSquaredLengths` is the
difference between the position of edge `e`'s own endpoint on side `s` and
the position of the opposite endpoint. -/
lemma grad_eq_claim (T : Stencil) (x : ℕ → ℚ) (v : ℕ → ℕ) (e s d : ℕ) (hs : s < 2) :
    GradSquaredLengths T x v e s d =
      x (3 * v (T.edge e s) + d) - x (3 * v (T.edge e (1 - s)) + d) := by
  interval_cases s <;> simp [GradSquaredLengths]

/-! ## Claim-side (specification) definitions -/

/-- Claim side of C1: the per-element force at local vertex `w`, coordinate
`c`: starting from zero, for every ordered pair of edges `(i, j)` and each
of edge `j`'s two endpoint sides `s`, the endpoint's force is decremented by
`elongation[i] * gradient[j][s] * metric[i, j]`, where the gradient is the
difference of edge `j`'s endpoint positions (own minus opposite) and
`metric[i, j]` is the packed entry of the unordered pair. -/
def elemForceClaim (T : Stencil) (elongation : ℕ → ℚ) (kt : ℕ → ℚ)
    (x : ℕ → ℚ) (v : ℕ → ℕ) (w c : ℕ) : ℚ :=
  ∑ i in Finset.range T.kNumEdges, ∑ j in Finset.range T.kNumEdges,
    ∑ s in Finset.range 2,
      if T.edge j s = w then
        -(elongation i *
          (x (3 * v (T.edge j s) + c) - x (3 * v (T.edge j (1 - s)) + c)) *
          metricAt T.kNumEdges kt i j)
      else 0

/-- Claim side of C1, global: the per-element contributions summed into the
global per-vertex force buffer. -/
def ForceClaim (T : Stencil) (elongationglob : ℕ → ℚ) (m : MjModelFlex)
    (flex : ℕ) (xpos : ℕ → ℚ) (n : ℕ) : ℚ :=
  ∑ t in Finset.range (m.flex_elemnum flex), ∑ w in Finset.range T.kNumVerts,
    ∑ c in Finset.range 3,
      if 3 * elemVert m flex t w + c = n then
        elemForceClaim T (elemElong T elongationglob m flex t) (elemStiff m flex t)
          xpos (elemVert m flex t) w c
      else 0

lemma localForce_claim (T : Stencil)
    (hT : ∀ kt : ℕ → ℚ, ∀ i j, i < T.kNumEdges → j < T.kNumEdges →
      unpackMetric T.kNumEdges kt (T.kNumEdges * i + j) = metricAt T.kNumEdges kt i j)
    (el kt : ℕ → ℚ) (x : ℕ → ℚ) (v : ℕ → ℕ) (w c : ℕ) (hc : c < 3) :
    localForce T el (GradSquaredLengths T x v) (unpackMetric T.kNumEdges kt) (3 * w + c) =
      elemForceClaim T el kt x v w c := by
  rw [localForce_apply, elemForceClaim]
  refine Finset.sum_congr rfl fun ed1 h1 => ?_
  refine Finset.sum_congr rfl fun ed2 h2 => ?_
  refine Finset.sum_congr rfl fun s hs => ?_
  rw [sum_three_collapse _ _ _ hc]
  by_cases he : T.edge ed2 s = w
  · rw [if_pos he, if_pos he, grad_eq_claim _ _ _ _ _ _ (Finset.mem_range.1 hs),
      hT kt ed1 ed2 (Finset.mem_range.1 h1) (Finset.mem_range.1 h2)]
  · rw [if_neg he, if_neg he]

lemma elemWrites_writeSum (T : Stencil) (el : ℕ → ℚ) (m : MjModelFlex) (flex : ℕ)
    (xpos : ℕ → ℚ) (t n : ℕ) :
    writeSum (elemWrites T el m flex xpos t) n =
      ∑ i in Finset.range T.kNumVerts, ∑ x in Finset.range 3,
        if 3 * elemVert m flex t i + x = n then
          localForce T (elemElong T el m flex t)
            (GradSquaredLengths T xpos (elemVert m flex t))
            (unpackMetric T.kNumEdges (elemStiff m flex t)) (3 * i + x)
        else 0 := by
  rw [elemWrites]
  simp only [writeSum_flatMap, writeSum_range_map, range_map_sum]

/-- C1: for either supported stencil, the global force computed by
`ComputeForce` is, slot by slot, the sum over elements of the claimed
per-element contraction `force[vertex] -= elongation[i]·gradient[j]·metric[i,j]`,
scattered at the element's global vertex indices. -/
theorem C1_force_assembly (T : Stencil) (hT : T = Stencil2D ∨ T = Stencil3D)
    (elongationglob : ℕ → ℚ) (m : MjModelFlex) (flex : ℕ) (xpos : ℕ → ℚ) (n : ℕ) :
    ComputeForce T elongationglob m flex xpos n =
      ForceClaim T elongationglob m flex xpos n := by
  have hbr : ∀ kt : ℕ → ℚ, ∀ i j, i < T.kNumEdges → j < T.kNumEdges →
      unpackMetric T.kNumEdges kt (T.kNumEdges * i + j) = metricAt T.kNumEdges kt i j := by
    rcases hT with rfl | rfl
    · exact unpackMetric_three
    · exact unpackMetric_six
  rw [ComputeForce, ForceClaim, foldl_accumulate_apply, zero_add]
  refine Finset.sum_congr rfl fun t ht => ?_
  rw [elemWrites_writeSum]
  refine Finset.sum_congr rfl fun w hw => ?_
  refine Finset.sum_congr rfl fun c hc => ?_
  by_cases hn : 3 * elemVert m flex t w + c = n
  · rw [if_pos hn, if_pos hn, localForce_claim T hbr _ _ _ _ _ _ (Finset.mem_range.1 hc)]
  · rw [if_neg hn, if_neg hn]

/-- A small concrete host model: one flex with one tetrahedron on vertices
0-3, identity edge map, unit stiffness. -/
def mC1 : MjModelFlex where
  nbody := 5
  nflex := 1
  opt_timestep := 1
  body_plugin := fun _ => 0
  body_simple := fun _ => 2
  body_dofnum := fun _ => 3
  body_dofadr := fun b => 3 * b
  flex_dim := fun _ => 3
  flex_vertadr := fun _ => 0
  flex_vertnum := fun _ => 4
  flex_vertbodyid := fun v => v
  flex_edgeadr := fun _ => 0
  flex_edgenum := fun _ => 6
  flex_elem := fun i => i
  flex_elemadr := fun _ => 0
  flex_elemnum := fun _ => 1
  flex_elemdataadr := fun _ => 0
  flex_elemedgeadr := fun _ => 0
  flex_elemedge := fun i => i
  flex_stiffness := fun _ => 1
  flexedge_length0 := fun _ => 1
  flex_xvert0 := fun i => (i : ℚ)

/-- Witness for C1 at a concrete stencil and concrete inputs. -/
theorem C1_force_assembly_witness :
    (Stencil3D = Stencil2D ∨ Stencil3D = Stencil3D) ∧
      ComputeForce Stencil3D (fun i => (i : ℚ)) mC1 0 (fun i => (i : ℚ)) 4 =
        ForceClaim Stencil3D (fun i => (i : ℚ)) mC1 0 (fun i => (i : ℚ)) 4 :=
  ⟨Or.inr rfl, C1_force_assembly Stencil3D (Or.inr rfl) _ mC1 0 _ 4⟩

/-- Generic conservation: if every stencil edge endpoint is a valid local
vertex, the per-element force summed over the element's vertices vanishes in
each coordinate, for any elongations and any metric values. -/
lemma localForce_conservation (T : Stencil)
    (hedge : ∀ e, e < T.kNumEdges → ∀ s, s < 2 → T.edge e s < T.kNumVerts)
    (el me : ℕ → ℚ) (x : ℕ → ℚ) (v : ℕ → ℕ) (c : ℕ) (hc : c < 3) :
    (∑ w in Finset.range T.kNumVerts,
      localForce T el (GradSquaredLengths T x v) me (3 * w + c)) = 0 := by
  have hw : ∀ w, localForce T el (GradSquaredLengths T x v) me (3 * w + c) =
      ∑ ed1 in Finset.range T.kNumEdges, ∑ ed2 in Finset.range T.kNumEdges,
        ∑ s in Finset.range 2,
          if T.edge ed2 s = w then
            -(el ed1 * GradSquaredLengths T x v ed2 s c * me (T.kNumEdges * ed1 + ed2))
          else 0 := by
    intro w
    rw [localForce_apply]
    refine Finset.sum_congr rfl fun ed1 _ => Finset.sum_congr rfl fun ed2 _ =>
      Finset.sum_congr rfl fun s _ => ?_
    exact sum_three_collapse _ _ _ hc _
  simp only [hw]
  rw [Finset.sum_comm]
  refine Finset.sum_eq_zero fun ed1 _ => ?_
  rw [Finset.sum_comm]
  refine Finset.sum_eq_zero fun ed2 h2 => ?_
  rw [Finset.sum_comm]
  have hcollapse : ∀ s, s < 2 →
      (∑ w in Finset.range T.kNumVerts,
        if T.edge ed2 s = w then
          -(el ed1 * GradSquaredLengths T x v ed2 s c * me (T.kNumEdges * ed1 + ed2))
        else 0) =
      -(el ed1 * GradSquaredLengths T x v ed2 s c * me (T.kNumEdges * ed1 + ed2)) := by
    intro s hs
    rw [Finset.sum_ite_eq]
    exact if_pos (Finset.mem_range.2 (hedge ed2 (Finset.mem_range.1 h2) s hs))
  rw [Finset.sum_range_succ, Finset.sum_range_succ, Finset.sum_range_zero, zero_add,
    hcollapse 0 (by omega), hcollapse 1 (by omega)]
  have h0 : GradSquaredLengths T x v ed2 0 c + GradSquaredLengths T x v ed2 1 c = 0 := by
    simp [GradSquaredLengths]
  linear_combination (-(el ed1 * me (T.kNumEdges * ed1 + ed2))) * h0

/-- C5: for a single element of either supported stencil, any metric values
and any elongations, the per-vertex forces produced by the local force loop
of `ComputeForce` sum to zero in every coordinate. -/
theorem C5_conservation (T : Stencil) (hT : T = Stencil2D ∨ T = Stencil3D)
    (el me : ℕ → ℚ) (x : ℕ → ℚ) (v : ℕ → ℕ) (c : ℕ) (hc : c < 3) :
    (∑ w in Finset.range T.kNumVerts,
      localForce T el (GradSquaredLengths T x v) me (3 * w + c)) = 0 := by
  refine localForce_conservation T ?_ el me x v c hc
  rcases hT with rfl | rfl <;> decide

/-- Witness for C5: a concrete tetrahedron with nonzero elongation. -/
theorem C5_conservation_witness :
    (Stencil3D = Stencil2D ∨ Stencil3D = Stencil3D) ∧ (0 : ℕ) < 3 ∧
      (∑ w in Finset.range Stencil3D.kNumVerts,
        localForce Stencil3D (fun _ => 1)
          (GradSquaredLengths Stencil3D (fun i => (i : ℚ)) (fun i => i))
          (fun _ => 1) (3 * w + 0)) = 0 :=
  ⟨Or.inr rfl, by omega,
    C5_conservation Stencil3D (Or.inr rfl) (fun _ => 1) (fun _ => 1)
      (fun i => (i : ℚ)) (fun i => i) 0 (by omega)⟩

/-! ## Metric tensor properties -/

lemma trEE_symm (b : ℕ → ℕ → ℚ) (i j : ℕ) : trEE b i j = trEE b j i := by
  rw [trEE, trEE, Finset.sum_comm]
  exact Finset.sum_congr rfl fun p _ => Finset.sum_congr rfl fun q _ => mul_comm _ _

lemma kFull_symm (mu la : ℚ) (b : ℕ → ℕ → ℚ) (i j : ℕ) :
    kFull mu la b i j = kFull mu la b j i := by
  rw [kFull, kFull, trEE_symm]; ring

lemma metricAt_symm (E : ℕ) (kt : ℕ → ℚ) (i j : ℕ) :
    metricAt E kt i j = metricAt E kt j i := by
  unfold metricAt
  rcases le_or_lt i j with h | h
  · rcases eq_or_lt_of_le h with rfl | h'
    · simp
    · rw [if_pos h, if_neg (by omega)]
  · rw [if_neg (by omega), if_pos (by omega)]

/-- C4: the metric tensor built by `MetricTensor` is symmetric — both as the
full pre-packing matrix `k` and as seen by `ComputeForce` after unpacking
the packed entries to full `E×E` form. -/
theorem C4_metric_symmetric (T : Stencil) (hT : T = Stencil2D ∨ T = Stencil3D)
    (mu la : ℚ) (basis : ℕ → ℕ → ℚ) (i j : ℕ)
    (hi : i < T.kNumEdges) (hj : j < T.kNumEdges) :
    kFull mu la basis i j = kFull mu la basis j i ∧
      unpackMetric T.kNumEdges (fun id => (MetricTensorPacked T mu la basis).getD id 0)
          (T.kNumEdges * i + j) =
        unpackMetric T.kNumEdges (fun id => (MetricTensorPacked T mu la basis).getD id 0)
          (T.kNumEdges * j + i) := by
  refine ⟨kFull_symm mu la basis i j, ?_⟩
  rcases hT with rfl | rfl
  · exact (unpackMetric_three _ i j hi hj).trans
      ((metricAt_symm _ _ i j).trans (unpackMetric_three _ j i hj hi).symm)
  · exact (unpackMetric_six _ i j hi hj).trans
      ((metricAt_symm _ _ i j).trans (unpackMetric_six _ j i hj hi).symm)

/-- Witness for C4 at concrete inputs. -/
theorem C4_metric_symmetric_witness :
    (Stencil3D = Stencil2D ∨ Stencil3D = Stencil3D) ∧ (1 : ℕ) < 6 ∧ (4 : ℕ) < 6 ∧
      (kFull 2 5 (fun e n => (e : ℚ) + n) 1 4 = kFull 2 5 (fun e n => (e : ℚ) + n) 4 1 ∧
        unpackMetric Stencil3D.kNumEdges
            (fun id => (MetricTensorPacked Stencil3D 2 5 (fun e n => (e : ℚ) + n)).getD id 0)
            (Stencil3D.kNumEdges * 1 + 4) =
          unpackMetric Stencil3D.kNumEdges
            (fun id => (MetricTensorPacked Stencil3D 2 5 (fun e n => (e : ℚ) + n)).getD id 0)
            (Stencil3D.kNumEdges * 4 + 1)) :=
  ⟨Or.inr rfl, by omega, by omega,
    C4_metric_symmetric Stencil3D (Or.inr rfl) 2 5 (fun e n => (e : ℚ) + n) 1 4
      (by decide) (by decide)⟩

/-- C9: for both supported stencils the packed entry count is exactly
`E*(E+1)/2`, so `MetricTensor` never takes its `mju_error` branch. -/
theorem C9_packed_count (T : Stencil) (hT : T = Stencil2D ∨ T = Stencil3D)
    (mu la : ℚ) (basis : ℕ → ℕ → ℚ) :
    (MetricTensorPacked T mu la basis).length = T.kNumEdges * (T.kNumEdges + 1) / 2 ∧
      MetricTensor T mu la basis = Except.ok (MetricTensorPacked T mu la basis) := by
  have hlen : (MetricTensorPacked T mu la basis).length =
      T.kNumEdges * (T.kNumEdges + 1) / 2 := by
    rw [MetricTensorPacked, List.length_map]
    rcases hT with rfl | rfl <;> rfl
  exact ⟨hlen, by rw [MetricTensor]; simp [hlen]⟩

/-- Witness for C9 at concrete inputs. -/
theorem C9_packed_count_witness :
    (Stencil2D = Stencil2D ∨ Stencil2D = Stencil3D) ∧
      ((MetricTensorPacked Stencil2D 3 7 (fun _ _ => 2)).length =
          Stencil2D.kNumEdges * (Stencil2D.kNumEdges + 1) / 2 ∧
        MetricTensor Stencil2D 3 7 (fun _ _ => 2) =
          Except.ok (MetricTensorPacked Stencil2D 3 7 (fun _ _ => 2))) :=
  ⟨Or.inl rfl, C9_packed_count Stencil2D (Or.inl rfl) 3 7 (fun _ _ => 2)⟩

/-- Claim side of C3: the trace of basis tensor `e` read as a 3×3 matrix. -/
def trEclaim (b : ℕ → ℕ → ℚ) (e : ℕ) : ℚ :=
  ∑ p in Finset.range 3, b e (3 * p + p)

/-- C3's stated double contraction `trace(B[i] · B[j]ᵗ)`, i.e. the Frobenius
product `Σ_{p,q} B[i][p,q] * B[j][p,q]`. -/
def trEEclaimT (b : ℕ → ℕ → ℚ) (i j : ℕ) : ℚ :=
  ∑ p in Finset.range 3, ∑ q in Finset.range 3, b i (3 * p + q) * b j (3 * p + q)

/-- The contraction the code actually computes, `trace(B[i] · B[j])`
`= Σ_{p,q} B[i][p,q] * B[j][q,p]`, written matrix-style. -/
def trEEclaim (b : ℕ → ℕ → ℚ) (i j : ℕ) : ℚ :=
  ∑ p in Finset.range 3, ∑ q in Finset.range 3, b i (3 * p + q) * b j (3 * q + p)

/-- An asymmetric basis: `B[0]` has a single nonzero entry at row 0,
column 1; all other basis tensors vanish. -/
def bC3 : ℕ → ℕ → ℚ := fun e n => if e = 0 ∧ n = 1 then 1 else 0

/-- Counterexample to C3 as stated: with `mu = 1`, `la = 0` and the
asymmetric basis `bC3`, the packed entry for the edge pair `(0, 0)` is `0`
(the code contracts `trace(B·B)`), while the claimed value
`mu*trace(B·Bᵗ) + la*trE·trE` is `1`. -/
theorem C3_counterexample :
    (MetricTensorPacked Stencil3D 1 0 bC3).getD (triIdx 6 0 0) 0 ≠
      1 * trEEclaimT bC3 0 0 + 0 * trEclaim bC3 0 * trEclaim bC3 0 := by
  have hL : (MetricTensorPacked Stencil3D 1 0 bC3).getD (triIdx 6 0 0) 0 =
      kFull 1 0 bC3 0 0 := rfl
  rw [hL]
  simp [kFull, trEE, trE, trEclaim, trEEclaimT, bC3, Finset.sum_range_succ]

lemma kFull_eq_claim (mu la : ℚ) (b : ℕ → ℕ → ℚ) (i j : ℕ) :
    kFull mu la b i j = mu * trEEclaim b i j + la * trEclaim b i * trEclaim b j := by
  have h1 : trEE b i j = trEEclaim b i j := rfl
  have h2 : ∀ e, trE b e = trEclaim b e := by
    intro e
    rw [trE, trEclaim]
    refine Finset.sum_congr rfl fun p _ => ?_
    have hp : 4 * p = 3 * p + p := by ring
    rw [hp]
  rw [kFull, h1, h2, h2]; ring

lemma packed_getD_six (mu la : ℚ) (b : ℕ → ℕ → ℚ) :
    ∀ i j, i ≤ j → j < 6 →
      (MetricTensorPacked Stencil3D mu la b).getD (triIdx 6 i j) 0 = kFull mu la b i j := by
  intro i j hij hj
  interval_cases j <;> interval_cases i <;> rfl

lemma packed_getD_three (mu la : ℚ) (b : ℕ → ℕ → ℚ) :
    ∀ i j, i ≤ j → j < 3 →
      (MetricTensorPacked Stencil2D mu la b).getD (triIdx 3 i j) 0 = kFull mu la b i j := by
  intro i j hij hj
  interval_cases j <;> interval_cases i <;> rfl

/-- C3 as amended: the packed entry of `MetricTensor` for the pair
`(i, j)`, `i ≤ j`, at the row-major upper-triangular position, is
`mu * trace(B[i]·B[j]) + la * trE[i] * trE[j]` — the double contraction is
against `B[j]`, not `B[j]ᵗ` (the two coincide for symmetric bases), and
there are `E(E+1)/2` packed entries. -/
theorem C3_metric_entries (T : Stencil) (hT : T = Stencil2D ∨ T = Stencil3D)
    (mu la : ℚ) (b : ℕ → ℕ → ℚ) :
    (MetricTensorPacked T mu la b).length = T.kNumEdges * (T.kNumEdges + 1) / 2 ∧
      ∀ i j, i ≤ j → j < T.kNumEdges →
        (MetricTensorPacked T mu la b).getD (triIdx T.kNumEdges i j) 0 =
          mu * trEEclaim b i j + la * trEclaim b i * trEclaim b j := by
  constructor
  · rw [MetricTensorPacked, List.length_map]
    rcases hT with rfl | rfl <;> rfl
  · intro i j hij hj
    rcases hT with rfl | rfl
    · exact (packed_getD_three mu la b i j hij hj).trans (kFull_eq_claim mu la b i j)
    · exact (packed_getD_six mu la b i j hij hj).trans (kFull_eq_claim mu la b i j)

/-- Witness for C3 (amended) at concrete inputs and a concrete edge pair. -/
theorem C3_metric_entries_witness :
    (Stencil3D = Stencil2D ∨ Stencil3D = Stencil3D) ∧ (0 : ℕ) ≤ 1 ∧
      (1 : ℕ) < Stencil3D.kNumEdges ∧
      (MetricTensorPacked Stencil3D 1 0 bC3).getD (triIdx Stencil3D.kNumEdges 0 1) 0 =
        1 * trEEclaim bC3 0 1 + 0 * trEclaim bC3 0 * trEclaim bC3 1 :=
  ⟨Or.inr rfl, by omega, by decide,
    (C3_metric_entries Stencil3D (Or.inr rfl) 1 0 bC3).2 0 1 (by omega) (by decide)⟩

/-! ## Force scatter (`AddFlexForce`) -/

/-- Type of the host primitive `mj_applyFT`: given a 3-vector force, a
3-vector torque, a 3-vector application point and a body id, it transforms a
generalized-force buffer. The primitive itself belongs to the host engine
and is a parameter of the model. -/
def ApplyFT : Type :=
  (ℕ → ℚ) → (ℕ → ℚ) → (ℕ → ℚ) → ℕ → (ℕ → ℚ) → (ℕ → ℚ)

/-- One iteration of the vertex loop of `AddFlexForce` (elasticity.h, lines
139-151): `bid = flex_vertbodyid[flex_vertadr[f0] + v]`; if
`body_simple[bid] != 2` the force is applied with `mj_applyFT` (zero torque,
point `xpos + 3*v`), otherwise `qfrc[body_dofadr[bid]+x] += force[3*v+x]`
for `x < body_dofnum[bid]`. -/
def scatterVertex (applyFT : ApplyFT) (force : ℕ → ℚ) (m : MjModelFlex)
    (xpos : ℕ → ℚ) (f0 : ℕ) (qfrc : ℕ → ℚ) (v : ℕ) : ℕ → ℚ :=
  let bid := m.flex_vertbodyid (m.flex_vertadr f0 + v)
  if m.body_simple bid ≠ 2 then
    applyFT (fun i => force (3 * v + i)) (fun _ => 0) (fun i => xpos (3 * v + i)) bid qfrc
  else
    (List.range (m.body_dofnum bid)).foldl
      (fun q x => upd q (m.body_dofadr bid + x) (q (m.body_dofadr bid + x) + force (3 * v + x)))
      qfrc

/-- Function `AddFlexForce` (elasticity.h, lines 131-152): scatter every vertex of
flex `f0` in order. -/
def AddFlexForce (applyFT : ApplyFT) (qfrc : ℕ → ℚ) (force : ℕ → ℚ)
    (m : MjModelFlex) (xpos : ℕ → ℚ) (f0 : ℕ) : ℕ → ℚ :=
  (List.range (m.flex_vertnum f0)).foldl (scatterVertex applyFT force m xpos f0) qfrc

lemma foldl_add_range (q : ℕ → ℚ) (a k : ℕ) (g : ℕ → ℚ) (n : ℕ) :
    ((List.range k).foldl (fun q x => upd q (a + x) (q (a + x) + g x)) q) n =
      q n + (if a ≤ n ∧ n < a + k then g (n - a) else 0) := by
  induction k generalizing n with
  | zero => simp
  | succ m ih =>
      rw [List.range_succ, List.foldl_append]
      simp only [List.foldl_cons, List.foldl_nil]
      by_cases hn : n = a + m
      · subst hn
        rw [upd, if_pos rfl, ih]
        have h1 : ¬(a + m < a + m) := by omega
        have h2 : a ≤ a + m ∧ a + m < a + (m + 1) := by omega
        have h3 : a + m - a = m := by omega
        simp [h1, h2, h3]
      · rw [upd, if_neg hn, ih]
        by_cases hin : a ≤ n ∧ n < a + m
        · have : a ≤ n ∧ n < a + (m + 1) := by omega
          simp [hin, this]
        · have : ¬(a ≤ n ∧ n < a + (m + 1)) := by omega
          simp [hin, this]

/-- C7: in the scatter loop, a vertex owned by a body with general
(non-simple) dofs has its 3-vector force applied by the host spatial-force
primitive `mj_applyFT` at the vertex's world position with zero torque; a
vertex owned by a simple body (with its 3 translational dofs) has the three
force components added directly to the body's generalized-force slots, all
other slots untouched. -/
theorem C7_scatter_paths (applyFT : ApplyFT) (force : ℕ → ℚ) (m : MjModelFlex)
    (xpos : ℕ → ℚ) (f0 : ℕ) (qfrc : ℕ → ℚ) (v : ℕ) :
    (m.body_simple (m.flex_vertbodyid (m.flex_vertadr f0 + v)) ≠ 2 →
      scatterVertex applyFT force m xpos f0 qfrc v =
        applyFT (fun i => force (3 * v + i)) (fun _ => 0) (fun i => xpos (3 * v + i))
          (m.flex_vertbodyid (m.flex_vertadr f0 + v)) qfrc) ∧
    (m.body_simple (m.flex_vertbodyid (m.flex_vertadr f0 + v)) = 2 →
      m.body_dofnum (m.flex_vertbodyid (m.flex_vertadr f0 + v)) = 3 →
      ∀ n, scatterVertex applyFT force m xpos f0 qfrc v n =
        qfrc n +
          (if m.body_dofadr (m.flex_vertbodyid (m.flex_vertadr f0 + v)) ≤ n ∧
              n < m.body_dofadr (m.flex_vertbodyid (m.flex_vertadr f0 + v)) + 3 then
            force (3 * v + (n - m.body_dofadr (m.flex_vertbodyid (m.flex_vertadr f0 + v))))
          else 0)) := by
  constructor
  · intro h
    rw [scatterVertex, if_pos h]
  · intro h hdof n
    rw [scatterVertex, if_neg (by simp [h]), ← hdof]
    exact foldl_add_range qfrc _ _ _ n

/-- Concrete host model for the scatter witnesses: vertex 0 belongs to body
7, which is simple (`body_simple = 2`) with 3 dofs at address 4. -/
def mC7 : MjModelFlex where
  nbody := 8
  nflex := 1
  opt_timestep := 1
  body_plugin := fun _ => 0
  body_simple := fun b => if b = 7 then 2 else 0
  body_dofnum := fun _ => 3
  body_dofadr := fun _ => 4
  flex_dim := fun _ => 3
  flex_vertadr := fun _ => 0
  flex_vertnum := fun _ => 1
  flex_vertbodyid := fun _ => 7
  flex_edgeadr := fun _ => 0
  flex_edgenum := fun _ => 0
  flex_elem := fun _ => 0
  flex_elemadr := fun _ => 0
  flex_elemnum := fun _ => 0
  flex_elemdataadr := fun _ => 0
  flex_elemedgeadr := fun _ => 0
  flex_elemedge := fun _ => 0
  flex_stiffness := fun _ => 0
  flexedge_length0 := fun _ => 0
  flex_xvert0 := fun _ => 0

/-- A trivial host spatial-force primitive for witnesses. -/
def applyId : ApplyFT := fun _ _ _ _ q => q

/-- Concrete per-vertex force buffer for the scatter witnesses. -/
def forceC7 : ℕ → ℚ := fun i => (i : ℚ)

/-- Concrete generalized-force buffer for the scatter witnesses. -/
def qfrcC7 : ℕ → ℚ := fun _ => 2

/-- Witness for C7: the simple-body branch at a concrete input. -/
theorem C7_scatter_paths_witness :
    mC7.body_simple (mC7.flex_vertbodyid (mC7.flex_vertadr 0 + 0)) = 2 ∧
      mC7.body_dofnum (mC7.flex_vertbodyid (mC7.flex_vertadr 0 + 0)) = 3 ∧
      scatterVertex applyId forceC7 mC7 forceC7 0 qfrcC7 0 5 =
        qfrcC7 5 +
          (if mC7.body_dofadr (mC7.flex_vertbodyid (mC7.flex_vertadr 0 + 0)) ≤ 5 ∧
              5 < mC7.body_dofadr (mC7.flex_vertbodyid (mC7.flex_vertadr 0 + 0)) + 3 then
            forceC7 (3 * 0 + (5 - mC7.body_dofadr
              (mC7.flex_vertbodyid (mC7.flex_vertadr 0 + 0))))
          else 0) :=
  ⟨rfl, rfl,
    (C7_scatter_paths applyId forceC7 mC7 forceC7 0 qfrcC7 0).2 rfl rfl 5⟩

/-- C10: in the scatter loop, the fast path is taken exactly when the
body's simple classification equals 2; on it, precisely the first
`body_dofnum` components of the vertex's 3-vector force are added at the
body's dof address (components beyond `body_dofnum` are discarded, all other
slots are unchanged); every other classification value goes through
`mj_applyFT`. -/
theorem C10_simple_fast_path (applyFT : ApplyFT) (force : ℕ → ℚ) (m : MjModelFlex)
    (xpos : ℕ → ℚ) (f0 : ℕ) (qfrc : ℕ → ℚ) (v : ℕ) :
    (m.body_simple (m.flex_vertbodyid (m.flex_vertadr f0 + v)) = 2 →
      (∀ x, x < m.body_dofnum (m.flex_vertbodyid (m.flex_vertadr f0 + v)) →
        scatterVertex applyFT force m xpos f0 qfrc v
            (m.body_dofadr (m.flex_vertbodyid (m.flex_vertadr f0 + v)) + x) =
          qfrc (m.body_dofadr (m.flex_vertbodyid (m.flex_vertadr f0 + v)) + x) +
            force (3 * v + x)) ∧
      (∀ n, n < m.body_dofadr (m.flex_vertbodyid (m.flex_vertadr f0 + v)) ∨
          m.body_dofadr (m.flex_vertbodyid (m.flex_vertadr f0 + v)) +
            m.body_dofnum (m.flex_vertbodyid (m.flex_vertadr f0 + v)) ≤ n →
        scatterVertex applyFT force m xpos f0 qfrc v n = qfrc n)) ∧
    (m.body_simple (m.flex_vertbodyid (m.flex_vertadr f0 + v)) ≠ 2 →
      scatterVertex applyFT force m xpos f0 qfrc v =
        applyFT (fun i => force (3 * v + i)) (fun _ => 0) (fun i => xpos (3 * v + i))
          (m.flex_vertbodyid (m.flex_vertadr f0 + v)) qfrc) := by
  constructor
  · intro h
    constructor
    · intro x hx
      rw [scatterVertex, if_neg (by simp [h])]
      rw [foldl_add_range]
      have hb : m.body_dofadr (m.flex_vertbodyid (m.flex_vertadr f0 + v)) ≤
          m.body_dofadr (m.flex_vertbodyid (m.flex_vertadr f0 + v)) + x ∧
          m.body_dofadr (m.flex_vertbodyid (m.flex_vertadr f0 + v)) + x <
            m.body_dofadr (m.flex_vertbodyid (m.flex_vertadr f0 + v)) +
              m.body_dofnum (m.flex_vertbodyid (m.flex_vertadr f0 + v)) := by omega
      rw [if_pos hb]
      congr 2
      omega
    · intro n hn
      rw [scatterVertex, if_neg (by simp [h]), foldl_add_range,
        if_neg (by omega), add_zero]
  · intro h
    rw [scatterVertex, if_pos h]

/-- Witness for C10: the fast path at a concrete input, with classification
value exactly 2. -/
theorem C10_simple_fast_path_witness :
    mC7.body_simple (mC7.flex_vertbodyid (mC7.flex_vertadr 0 + 0)) = 2 ∧
      (1 : ℕ) < mC7.body_dofnum (mC7.flex_vertbodyid (mC7.flex_vertadr 0 + 0)) ∧
      scatterVertex applyId forceC7 mC7 forceC7 0 qfrcC7 0
          (mC7.body_dofadr (mC7.flex_vertbodyid (mC7.flex_vertadr 0 + 0)) + 1) =
        qfrcC7 (mC7.body_dofadr (mC7.flex_vertbodyid (mC7.flex_vertadr 0 + 0)) + 1) +
          forceC7 (3 * 0 + 1) :=
  ⟨rfl, by decide,
    ((C10_simple_fast_path applyId forceC7 mC7 forceC7 0 qfrcC7 0).1 rfl).1 1 (by decide)⟩

/-! ## The `Solid` plugin instance -/

/-- The mutable per-instance state of `Solid` (solid.h / solid.cc): `i0`,
`f0`, vertex and edge counts, the damping coefficient and the three owned
buffers. `prev` is empty until the first `Compute` call initializes it. -/
structure SolidState where
  i0 : ℕ
  f0 : ℕ
  nv : ℕ
  ne : ℕ
  damping : ℚ
  elongation : List ℚ
  force : ℕ → ℚ
  prev : List ℚ

/-- Method `Solid::Compute` (solid.cc, lines 172-208): compute `kD`, initialize
`prev` from the reference lengths on the first call, fill the elongation
buffer, run `ComputeForce` and `AddFlexForce`, and overwrite `prev` with the
deformed lengths when `kD > 0`. Returns the new state and the updated
`qfrc_passive`. -/
def SolidCompute (applyFT : ApplyFT) (s : SolidState) (m : MjModelFlex)
    (d : MjData) : SolidState × (ℕ → ℚ) :=
  let kD := s.damping / m.opt_timestep
  let deformed := fun i => d.flexedge_length (m.flex_edgeadr s.f0 + i)
  let ref := fun i => m.flexedge_length0 (m.flex_edgeadr s.f0 + i)
  let prev := if s.prev.isEmpty then (List.range s.ne).map ref else s.prev
  let elongation := (List.range s.ne).map fun idx =>
    deformed idx * deformed idx - ref idx * ref idx +
      (deformed idx * deformed idx - prev.getD idx 0 * prev.getD idx 0) * kD
  let xpos := fun i => d.flexvert_xpos (3 * m.flex_vertadr s.f0 + i)
  let force := ComputeForce Stencil3D (fun i => elongation.getD i 0) m s.f0 xpos
  let qfrc := AddFlexForce applyFT d.qfrc_passive force m xpos s.f0
  let prevOut := if kD > 0 then (List.range s.ne).map deformed else prev
  ({ s with elongation := elongation, force := force, prev := prevOut }, qfrc)

lemma getD_range_map (n i : ℕ) (f : ℕ → ℚ) (hi : i < n) :
    ((List.range n).map f).getD i 0 = f i := by
  rw [List.getD_eq_getElem?_getD, List.getElem?_map, List.getElem?_range hi]
  rfl

/-- C2: the per-step elongation of edge `i` is
`(d[i]² - r[i]²) + kD·(d[i]² - p[i]²)` with `kD = damping / timestep`,
where `p[i]` is the stored previous length, taken from the reference length
when the previous-length buffer has not been set yet (first call). -/
theorem C2_elongation (applyFT : ApplyFT) (s : SolidState) (m : MjModelFlex)
    (d : MjData) (i : ℕ) (hi : i < s.ne) :
    (SolidCompute applyFT s m d).1.elongation.getD i 0 =
      (d.flexedge_length (m.flex_edgeadr s.f0 + i) *
          d.flexedge_length (m.flex_edgeadr s.f0 + i) -
        m.flexedge_length0 (m.flex_edgeadr s.f0 + i) *
          m.flexedge_length0 (m.flex_edgeadr s.f0 + i)) +
      (s.damping / m.opt_timestep) *
        (d.flexedge_length (m.flex_edgeadr s.f0 + i) *
            d.flexedge_length (m.flex_edgeadr s.f0 + i) -
          (if s.prev.isEmpty then m.flexedge_length0 (m.flex_edgeadr s.f0 + i)
            else s.prev.getD i 0) *
          (if s.prev.isEmpty then m.flexedge_length0 (m.flex_edgeadr s.f0 + i)
            else s.prev.getD i 0)) := by
  by_cases hp : s.prev.isEmpty
  · simp only [SolidCompute, hp, if_true]
    rw [getD_range_map _ _ _ hi, getD_range_map _ _ _ hi]
    ring
  · simp only [SolidCompute, hp, Bool.false_eq_true, if_false]
    rw [getD_range_map _ _ _ hi]
    ring

/-- C6 (amended): if `kD > 0` the previous-length buffer is overwritten with
the deformed lengths; if `kD ≤ 0` it keeps the value it had after the
first-call initialization (i.e. unchanged, except that an empty buffer is
initialized from the reference lengths regardless of `kD`); with damping 0
the elongation is exactly `d² - r²`, independent of the buffer contents. -/
theorem C6_prev_update (applyFT : ApplyFT) (s : SolidState) (m : MjModelFlex)
    (d : MjData) :
    (s.damping / m.opt_timestep > 0 →
      (SolidCompute applyFT s m d).1.prev =
        (List.range s.ne).map fun i => d.flexedge_length (m.flex_edgeadr s.f0 + i)) ∧
    (¬ s.damping / m.opt_timestep > 0 →
      (SolidCompute applyFT s m d).1.prev =
        (if s.prev.isEmpty then
          (List.range s.ne).map fun i => m.flexedge_length0 (m.flex_edgeadr s.f0 + i)
        else s.prev)) ∧
    (s.damping = 0 → ∀ i, i < s.ne →
      (SolidCompute applyFT s m d).1.elongation.getD i 0 =
        d.flexedge_length (m.flex_edgeadr s.f0 + i) *
            d.flexedge_length (m.flex_edgeadr s.f0 + i) -
          m.flexedge_length0 (m.flex_edgeadr s.f0 + i) *
            m.flexedge_length0 (m.flex_edgeadr s.f0 + i)) := by
  refine ⟨fun hkd => ?_, fun hkd => ?_, fun hdamp i hi => ?_⟩
  · simp only [SolidCompute, if_pos hkd]
  · simp only [SolidCompute, if_neg hkd]
  · have h := C2_elongation applyFT s m d i hi
    rw [h, hdamp, zero_div]
    ring

/-- Concrete host model for the step-state witnesses and counterexample:
one flex, one edge, reference length 1, deformed length 2, no vertices and
no elements (so the force loops are trivial). -/
def mC6 : MjModelFlex where
  nbody := 1
  nflex := 1
  opt_timestep := 1
  body_plugin := fun _ => 0
  body_simple := fun _ => 0
  body_dofnum := fun _ => 0
  body_dofadr := fun _ => 0
  flex_dim := fun _ => 3
  flex_vertadr := fun _ => 0
  flex_vertnum := fun _ => 0
  flex_vertbodyid := fun _ => 0
  flex_edgeadr := fun _ => 0
  flex_edgenum := fun _ => 1
  flex_elem := fun _ => 0
  flex_elemadr := fun _ => 0
  flex_elemnum := fun _ => 0
  flex_elemdataadr := fun _ => 0
  flex_elemedgeadr := fun _ => 0
  flex_elemedge := fun _ => 0
  flex_stiffness := fun _ => 0
  flexedge_length0 := fun _ => 1
  flex_xvert0 := fun _ => 0

/-- Concrete `mjData` for the step-state witnesses: deformed edge length 2. -/
def dC6 : MjData where
  flexedge_length := fun _ => 2
  flexvert_xpos := fun _ => 0
  qfrc_passive := fun _ => 0

/-- First-call state with damping 0 and an uninitialized `prev` buffer. -/
def sC6 : SolidState where
  i0 := 0
  f0 := 0
  nv := 0
  ne := 1
  damping := 0
  elongation := [0]
  force := fun _ => 0
  prev := []

/-- Counterexample to C6 as stated: with damping 0 (`kD = 0`), the first
`Compute` call does change the previous-length buffer — it initializes it
from the reference lengths (`[]` becomes `[1]`). -/
theorem C6_counterexample :
    sC6.damping = 0 ∧ sC6.damping / mC6.opt_timestep = 0 ∧
      (SolidCompute applyId sC6 mC6 dC6).1.prev ≠ sC6.prev := by
  refine ⟨rfl, by norm_num [sC6, mC6], ?_⟩
  simp only [SolidCompute, sC6, mC6, dC6]
  norm_num

/-- First-call state with damping 1. -/
def sC6d : SolidState where
  i0 := 0
  f0 := 0
  nv := 0
  ne := 1
  damping := 1
  elongation := [0]
  force := fun _ => 0
  prev := []

/-- Witness for C6 (amended): with `kD = 1 > 0` the buffer is overwritten
with the deformed lengths. -/
theorem C6_prev_update_witness :
    sC6d.damping / mC6.opt_timestep > 0 ∧
      (SolidCompute applyId sC6d mC6 dC6).1.prev =
        ((List.range sC6d.ne).map fun i =>
          dC6.flexedge_length (mC6.flex_edgeadr sC6d.f0 + i)) :=
  ⟨by norm_num [sC6d, mC6], (C6_prev_update applyId sC6d mC6 dC6).1 (by norm_num [sC6d, mC6])⟩

/-- Witness for C2 at a concrete first-call input. -/
theorem C2_elongation_witness :
    (0 : ℕ) < sC6.ne ∧
      (SolidCompute applyId sC6 mC6 dC6).1.elongation.getD 0 0 =
        (dC6.flexedge_length (mC6.flex_edgeadr sC6.f0 + 0) *
            dC6.flexedge_length (mC6.flex_edgeadr sC6.f0 + 0) -
          mC6.flexedge_length0 (mC6.flex_edgeadr sC6.f0 + 0) *
            mC6.flexedge_length0 (mC6.flex_edgeadr sC6.f0 + 0)) +
        (sC6.damping / mC6.opt_timestep) *
          (dC6.flexedge_length (mC6.flex_edgeadr sC6.f0 + 0) *
              dC6.flexedge_length (mC6.flex_edgeadr sC6.f0 + 0) -
            (if sC6.prev.isEmpty then mC6.flexedge_length0 (mC6.flex_edgeadr sC6.f0 + 0)
              else sC6.prev.getD 0 0) *
            (if sC6.prev.isEmpty then mC6.flexedge_length0 (mC6.flex_edgeadr sC6.f0 + 0)
              else sC6.prev.getD 0 0)) :=
  ⟨by norm_num [sC6], C2_elongation applyId sC6 mC6 dC6 0 (by norm_num [sC6])⟩

/-! ## Construction (`Solid::Solid`, `Solid::Create`) -/

/-- Host helper `mju_sub3(res, x + p, x + q)`: componentwise difference of two
3-vectors stored at flat offsets `p` and `q`. -/
def mju_sub3 (x : ℕ → ℚ) (p q : ℕ) : ℕ → ℚ := fun i => x (p + i) - x (q + i)

/-- Host helper `mju_cross`: 3-vector cross product. -/
def mju_cross (a b : ℕ → ℚ) : ℕ → ℚ := fun i =>
  if i = 0 then a 1 * b 2 - a 2 * b 1
  else if i = 1 then a 2 * b 0 - a 0 * b 2
  else a 0 * b 1 - a 1 * b 0

/-- Host helper `mju_dot3`: 3-vector dot product. -/
def mju_dot3 (a b : ℕ → ℚ) : ℚ := a 0 * b 0 + a 1 * b 1 + a 2 * b 2

/-- Function `ComputeVolume` (solid.cc, lines 42-54): oriented tetrahedron volume
`dot(cross(edge2, edge1), edge3) / 6` with edges from vertex 0. -/
def ComputeVolume (x : ℕ → ℚ) (v : ℕ → ℕ) : ℚ :=
  let edge1 := mju_sub3 x (3 * v 1) (3 * v 0)
  let edge2 := mju_sub3 x (3 * v 2) (3 * v 0)
  let edge3 := mju_sub3 x (3 * v 3) (3 * v 0)
  let normal := mju_cross edge2 edge1
  mju_dot3 normal edge3 / 6

/-- Local face table of solid.cc (line 37). -/
def face : ℕ → ℕ → ℕ :=
  fun f k => (([[2, 1, 0], [0, 1, 3], [1, 2, 3], [2, 0, 3]].getD f []).getD k 0)

/-- Edge-to-opposite-faces table of solid.cc (lines 38-39). -/
def e2f : ℕ → ℕ → ℕ :=
  fun e k => (([[2, 3], [1, 3], [2, 1], [1, 0], [0, 2], [0, 3]].getD e []).getD k 0)

/-- Function `ComputeBasis` (solid.cc, lines 57-82): the symmetrized tensor product
of the area normals of the two faces adjacent to an edge, scaled by
`1/(36*2*volume²)`; entry `3*i+j` of the 9-slot tensor. -/
def ComputeBasis (x : ℕ → ℚ) (v : ℕ → ℕ) (faceL faceR : ℕ → ℕ)
    (volume : ℚ) : ℕ → ℚ :=
  let edgesL0 := mju_sub3 x (3 * v (faceL 1)) (3 * v (faceL 0))
  let edgesL3 := mju_sub3 x (3 * v (faceL 2)) (3 * v (faceL 0))
  let edgesR0 := mju_sub3 x (3 * v (faceR 1)) (3 * v (faceR 0))
  let edgesR3 := mju_sub3 x (3 * v (faceR 2)) (3 * v (faceR 0))
  let normalL := mju_cross edgesL0 edgesL3
  let normalR := mju_cross edgesR0 edgesR3
  fun n =>
    (normalL (n / 3) * normalR (n % 3) + normalR (n / 3) * normalL (n % 3)) /
      (36 * 2 * volume * volume)

/-- The plugin-body counting loop of the constructor (solid.cc, lines
107-115): returns `(nv, i0)` where `nv` counts bodies `1 ≤ i < nbody` with
`body_plugin[i] == instance` and `i0` is the first of them. -/
def bodyScan (m : MjModelFlex) (inst : Int) : ℕ × ℕ :=
  (List.range' 1 (m.nbody - 1)).foldl
    (fun s i =>
      if m.body_plugin i = inst then (s.1 + 1, if s.1 = 0 then i else s.2) else s)
    (0, 0)

/-- The flex scan of the constructor (solid.cc, lines 117-128): for every
flex and every of its vertices whose body is `i0`, record `f0` and `nv`,
failing fatally (`mju_error`) when that flex is not 3-dimensional. -/
def flexScan (m : MjModelFlex) (i0 nv0 : ℕ) : Except MjError (Int × ℕ) :=
  (List.range m.nflex).foldlM
    (fun s i =>
      (List.range (m.flex_vertnum i)).foldlM
        (fun s j =>
          if m.flex_vertbodyid (m.flex_vertadr i + j) = i0 then
            if m.flex_dim i ≠ 3 then Except.error MjError.non3DMesh
            else Except.ok (Int.ofNat i, m.flex_vertnum i)
          else Except.ok s)
        s)
    (-1, nv0)

/-- The writes of `MetricTensor` into the shared stiffness storage:
`metric[base + id] = packed[id]` for `id = 0, 1, ...`. -/
def writePacked (stiff : ℕ → ℚ) (base : ℕ) (packed : List ℚ) : ℕ → ℚ :=
  packed.enum.foldl (fun s p => upd s (base + p.1) p.2) stiff

/-- The `Solid` constructor (solid.cc, lines 104-170): scan bodies and
flexes (fatal error on a non-3D mesh or a foreign-plugin body), then for
every tetrahedron compute volume, edge bases and material parameters and
write the packed metric tensor into the stiffness storage. Returns the
initial state and the updated stiffness array. -/
def SolidCtor (m : MjModelFlex) (inst : Int) (nu Ey damp : ℚ) :
    Except MjError (SolidState × (ℕ → ℚ)) := do
  let scan := bodyScan m inst
  let fs ← flexScan m scan.2 scan.1
  let f0 := fs.1.toNat
  let body_pos := fun i => m.flex_xvert0 (3 * m.flex_vertadr f0 + i)
  let stiff ← (List.range (m.flex_elemnum f0)).foldlM
    (fun stiff t => do
      let v := fun i => m.flex_elem (m.flex_elemdataadr f0 + (m.flex_dim f0 + 1) * t + i)
      let _ ← (List.range 4).foldlM
        (fun _ i =>
          let bi := m.flex_vertbodyid (m.flex_vertadr f0 + v i)
          if bi ≠ 0 ∧ m.body_plugin bi ≠ inst then
            Except.error MjError.bodyPluginMismatch
          else Except.ok ())
        ()
      let volume := ComputeVolume body_pos v
      let basis := fun e => ComputeBasis body_pos v (face (e2f e 0)) (face (e2f e 1)) volume
      let mu := Ey / (2 * (1 + nu)) * volume
      let la := Ey * nu / ((1 + nu) * (1 - 2 * nu)) * volume
      let packed ← MetricTensor Stencil3D mu la (fun e n => basis e n)
      Except.ok (writePacked stiff (21 * m.flex_elemadr f0 + 21 * t) packed))
    m.flex_stiffness
  Except.ok
    ({ i0 := scan.2, f0 := f0, nv := fs.2, ne := m.flex_edgenum f0, damping := damp,
       elongation := List.replicate (m.flex_edgenum f0) 0,
       force := fun _ => 0, prev := [] }, stiff)

/-- The plugin's configuration attribute names (solid.cc, line 219). -/
inductive Attr where
  | face
  | edge
  | young
  | poisson
  | damping
  | thickness

/-- Modelled from the spec: `CheckAttr` (declared in elasticity.h, defined
in elasticity.cc, which is not among the sources) checks that a plugin
configuration attribute reads as a number; the spec treats attribute parsing
as an external collaborator. The parsed configuration is modelled as a
partial map from attribute names to numeric values and `CheckAttr` as the
presence of a parsed value. -/
def CheckAttr (config : Attr → Option ℚ) (a : Attr) : Bool :=
  (config a).isSome

/-- Factory `Solid::Create` (solid.cc, lines 87-101): when the face, edge,
poisson and young attributes all check, read poisson, young and damping
(`strtod` yields 0 for a missing value) and construct; otherwise warn and
return `std::nullopt`, modelled as `none`. -/
def SolidCreate (m : MjModelFlex) (inst : Int) (config : Attr → Option ℚ) :
    Option (Except MjError (SolidState × (ℕ → ℚ))) :=
  if CheckAttr config Attr.face && CheckAttr config Attr.edge &&
      CheckAttr config Attr.poisson && CheckAttr config Attr.young then
    some (SolidCtor m inst ((config Attr.poisson).getD 0) ((config Attr.young).getD 0)
      ((config Attr.damping).getD 0))
  else none

/-- C8 (amended): the factory returns the no-instance value exactly when one
of the face, edge, poisson, young attributes is missing or non-numeric; it
performs no range validation of the material parameters. -/
theorem C8_no_instance (m : MjModelFlex) (inst : Int) (config : Attr → Option ℚ) :
    SolidCreate m inst config = none ↔
      (CheckAttr config Attr.face = false ∨ CheckAttr config Attr.edge = false ∨
        CheckAttr config Attr.poisson = false ∨ CheckAttr config Attr.young = false) := by
  cases hf : CheckAttr config Attr.face <;> cases he : CheckAttr config Attr.edge <;>
    cases hp : CheckAttr config Attr.poisson <;> cases hy : CheckAttr config Attr.young <;>
    simp [SolidCreate, hf, he, hp, hy]

/-- Concrete host model for the factory counterexample: two bodies (body 1
has plugin instance 1), one 3D flex with one vertex owned by body 1 and no
elements. -/
def mC8 : MjModelFlex where
  nbody := 2
  nflex := 1
  opt_timestep := 1
  body_plugin := fun b => if b = 1 then 1 else 0
  body_simple := fun _ => 0
  body_dofnum := fun _ => 0
  body_dofadr := fun _ => 0
  flex_dim := fun _ => 3
  flex_vertadr := fun _ => 0
  flex_vertnum := fun _ => 1
  flex_vertbodyid := fun _ => 1
  flex_edgeadr := fun _ => 0
  flex_edgenum := fun _ => 0
  flex_elem := fun _ => 0
  flex_elemadr := fun _ => 0
  flex_elemnum := fun _ => 0
  flex_elemdataadr := fun _ => 0
  flex_elemedgeadr := fun _ => 0
  flex_elemedge := fun _ => 0
  flex_stiffness := fun _ => 0
  flexedge_length0 := fun _ => 0
  flex_xvert0 := fun _ => 0

/-- A parsed configuration whose parameters violate the stated contract:
Young's modulus −1 (not > 0). All four required attributes parse. -/
def cfgC8 : Attr → Option ℚ := fun a =>
  match a with
  | Attr.face => some 0
  | Attr.edge => some 0
  | Attr.poisson => some (1 / 4)
  | Attr.young => some (-1)
  | _ => none

/-- Counterexample to C8 as stated: with Young's modulus −1 ≤ 0 (an invalid
material parameter by the stated contract) the factory still creates an
instance — no range check exists. -/
theorem C8_counterexample :
    (cfgC8 Attr.young).getD 0 ≤ 0 ∧
      (SolidCreate mC8 1 cfgC8).map Except.isOk = some true := by
  constructor
  · have hy : cfgC8 Attr.young = some (-1) := rfl
    rw [hy]
    norm_num
  · rfl

end Elasticity
